import Mathlib

/-!
Verification of the `hi` peer-to-peer daemon (hwipl/hi).

This file gives a shallow embedding of the parts of the source that the
checked properties are about:

* the CBOR message codec derived by `minicbor` for `src/message.rs`
  (array encoding: structs become CBOR arrays indexed by field position,
  enums become two-element arrays of variant index and field array;
  unsigned integers use minimal-length heads; `#[cbor(with =
  "minicbor::bytes")]` fields use the byte-string major type);
* the daemon router of `src/daemon.rs` together with the message types of
  `src/daemon_message.rs` that this revision of the router was written
  against (the router also matches on the `ConnectAddress` and `GetName`
  variants of that revision);
* the service-directory client of `src/client/service/client.rs`;
* the file-transfer state machine of `src/client/file/client.rs`.

Machine integers are modelled as `Nat` with explicit `% 2 ^ w` where
overflow matters.  Rust `String` values are modelled as Lean `String`
in the router models, and as their UTF-8 byte sequences (`List Nat`) in
the codec.  Hash maps are modelled as association lists (key uniqueness
is stated as a hypothesis where a result depends on it), hash sets as
lists of their elements in iteration order, and mpsc sender channels as
the list of messages sent on them.  I/O, randomness and clock reads are
passed in as explicit arguments.
-/

namespace Hi

/-! ## CBOR primitives (encoding used by minicbor) -/

/-- Big-endian byte representation of `n` in exactly `k` bytes. -/
def beBytes : Nat → Nat → List Nat
  | 0, _ => []
  | k + 1, n => beBytes k (n / 256) ++ [n % 256]

/-- Read a big-endian byte list back into a number. -/
def fromBE (bs : List Nat) : Nat :=
  bs.foldl (fun acc b => acc * 256 + b) 0

/-- Encode a CBOR head with major type `major` and argument `arg`,
using the minimal-length encoding minicbor produces. -/
def encHead (major arg : Nat) : List Nat :=
  if arg < 24 then [32 * major + arg]
  else if arg < 2 ^ 8 then (32 * major + 24) :: beBytes 1 arg
  else if arg < 2 ^ 16 then (32 * major + 25) :: beBytes 2 arg
  else if arg < 2 ^ 32 then (32 * major + 26) :: beBytes 4 arg
  else (32 * major + 27) :: beBytes 8 arg

/-- Decode a CBOR head: major type, argument, and remaining bytes.
Arguments of 1, 2, 4 or 8 following bytes are accepted (as minicbor
does); the reserved additional informations 28-31 are rejected. -/
def decHead : List Nat → Option (Nat × Nat × List Nat)
  | [] => none
  | b :: r =>
    let major := b / 32
    let info := b % 32
    if info < 24 then some (major, info, r)
    else if info ≤ 27 then
      let k := 2 ^ (info - 24)
      if r.length < k then none
      else some (major, fromBE (r.take k), r.drop k)
    else none

/-! ### Element encoders and decoders

One encoder/decoder pair per primitive CBOR shape produced by the derived
minicbor instances.  All decoders have the parser shape
`List Nat → Option (α × List Nat)` returning the value and the unread rest. -/

/-- Unsigned integer (CBOR major type 0). -/
def encUInt (n : Nat) : List Nat := encHead 0 n

/-- Decode an unsigned integer, rejecting values outside the Rust target
type's range (`bound` is `2 ^ 16`, `2 ^ 32` or `2 ^ 64`), as the minicbor
decoders for `u16`/`u32`/`u64` do. -/
def decUInt (bound : Nat) (bs : List Nat) : Option (Nat × List Nat) :=
  match decHead bs with
  | some (0, n, r) => if n < bound then some (n, r) else none
  | _ => none

/-- Booleans are the simple values false/true (0xf4/0xf5). -/
def encBool (b : Bool) : List Nat := [if b then 245 else 244]

def decBool (bs : List Nat) : Option (Bool × List Nat) :=
  match decHead bs with
  | some (7, 20, r) => some (false, r)
  | some (7, 21, r) => some (true, r)
  | _ => none

/-- Text string (major type 3); Rust strings are modelled as their UTF-8
byte sequences. -/
def encText (s : List Nat) : List Nat := encHead 3 s.length ++ s

def decText (bs : List Nat) : Option (List Nat × List Nat) :=
  match decHead bs with
  | some (3, n, r) => if r.length < n then none else some (r.take n, r.drop n)
  | _ => none

/-- Byte string (major type 2), used for `#[cbor(with = "minicbor::bytes")]`
fields. -/
def encBytes (s : List Nat) : List Nat := encHead 2 s.length ++ s

def decBytes (bs : List Nat) : Option (List Nat × List Nat) :=
  match decHead bs with
  | some (2, n, r) => if r.length < n then none else some (r.take n, r.drop n)
  | _ => none

/-- A sequence of elements encoded back to back. -/
def encSeq (f : α → List Nat) (xs : List α) : List Nat :=
  (xs.map f).flatten

/-- Decode exactly `n` consecutive elements. -/
def decN (dec : List Nat → Option (α × List Nat)) : Nat → List Nat → Option (List α × List Nat)
  | 0, bs => some ([], bs)
  | n + 1, bs =>
    match dec bs with
    | some (x, r) =>
      match decN dec n r with
      | some (xs, r2) => some (x :: xs, r2)
      | none => none
    | none => none

/-- CBOR array (major type 4) of homogeneous elements: the encoding of
`Vec<T>` and `HashSet<T>` (set iteration order is the list order). -/
def encArr (f : α → List Nat) (xs : List α) : List Nat :=
  encHead 4 xs.length ++ encSeq f xs

def decArr (dec : List Nat → Option (α × List Nat)) (bs : List Nat) :
    Option (List α × List Nat) :=
  match decHead bs with
  | some (4, n, r) => decN dec n r
  | _ => none

/-- CBOR map (major type 5) of key/value pairs: the encoding of `HashMap`. -/
def encMap (fk : α → List Nat) (fv : β → List Nat) (xs : List (α × β)) : List Nat :=
  encHead 5 xs.length ++ encSeq (fun p => fk p.1 ++ fv p.2) xs

def decPair (decK : List Nat → Option (α × List Nat))
    (decV : List Nat → Option (β × List Nat)) (bs : List Nat) :
    Option ((α × β) × List Nat) :=
  match decK bs with
  | some (k, r) =>
    match decV r with
    | some (v, r2) => some ((k, v), r2)
    | none => none
  | none => none

def decMap (decK : List Nat → Option (α × List Nat))
    (decV : List Nat → Option (β × List Nat)) (bs : List Nat) :
    Option (List (α × β) × List Nat) :=
  match decHead bs with
  | some (5, n, r) => decN (decPair decK decV) n r
  | _ => none

/-- Expect a specific CBOR head (used for the fixed array headers and
variant indices the derived decoders check). -/
def expHead (major arg : Nat) (bs : List Nat) : Option (List Nat) :=
  match decHead bs with
  | some (m, n, r) => if m = major ∧ n = arg then some r else none
  | _ => none

/-! ## The message codec of `src/message.rs`

`PeerInfo`, `GetSet`, `Event` and `Message` mirror the Rust types.
`u16`/`u32`/`u64` fields are `Nat`, strings are UTF-8 byte lists,
`HashSet<u16>` is the list of elements in iteration order, and
`HashMap<String, HashSet<u16>>` the list of its entries.  The encoders
follow the derived minicbor instances: structs and variant bodies are
CBOR arrays with fields at their `#[n(i)]` positions (all indices here
are consecutive), enums are two-element arrays of variant index and
body, and the `Message::Message` content field uses the byte-string
major type via `#[cbor(with = "minicbor::bytes")]` while the legacy
`FileMessage` content is a plain `Vec<u8>`, i.e. an array of `u8`. -/

namespace Codec

structure PeerInfo where
  peer_id : List Nat
  name : List Nat
  services_tag : Nat
  file_support : Bool
  last_update : Nat
  deriving DecidableEq

inductive GetSet where
  | Ok : GetSet
  | Error : List Nat → GetSet
  | Name : List Nat → GetSet
  | Peers : List PeerInfo → GetSet
  | Connect : List Nat → GetSet
  | ServicesTag : Nat → GetSet
  deriving DecidableEq

inductive Event where
  | ClientUpdate : Bool → Nat → List Nat → Event
  | PeerUpdate : PeerInfo → Event
  | ServiceUpdate : Nat → List (List Nat × List Nat) → Event
  deriving DecidableEq

inductive Message where
  | Ok : Message
  | Error : (message : List Nat) → Message
  | FileMessage : (to_peer from_peer : List Nat) → (to_client from_client : Nat) →
      (content : List Nat) → Message
  | Register : (services : List Nat) → (chat files : Bool) → Message
  | RegisterOk : (client_id : Nat) → Message
  | Get : (client_id request_id : Nat) → (content : GetSet) → Message
  | Set : (client_id request_id : Nat) → (content : GetSet) → Message
  | Msg : (to_peer from_peer : List Nat) → (to_client from_client service : Nat) →
      (content : List Nat) → Message
  | Event : (to_client from_client : Nat) → (event : Event) → Message
  deriving DecidableEq

def PeerInfo.encode (p : PeerInfo) : List Nat :=
  encHead 4 5 ++ encText p.peer_id ++ encText p.name ++ encUInt p.services_tag
    ++ encBool p.file_support ++ encUInt p.last_update

def PeerInfo.decode (bs : List Nat) : Option (PeerInfo × List Nat) := do
  let r ← expHead 4 5 bs
  let (pid, r) ← decText r
  let (nm, r) ← decText r
  let (tag, r) ← decUInt (2 ^ 32) r
  let (fs, r) ← decBool r
  let (lu, r) ← decUInt (2 ^ 64) r
  some (⟨pid, nm, tag, fs, lu⟩, r)

def GetSet.encode : GetSet → List Nat
  | .Ok => encHead 4 2 ++ encUInt 0 ++ encHead 4 0
  | .Error m => encHead 4 2 ++ encUInt 1 ++ encHead 4 1 ++ encText m
  | .Name s => encHead 4 2 ++ encUInt 2 ++ encHead 4 1 ++ encText s
  | .Peers ps => encHead 4 2 ++ encUInt 3 ++ encHead 4 1 ++ encArr PeerInfo.encode ps
  | .Connect s => encHead 4 2 ++ encUInt 4 ++ encHead 4 1 ++ encText s
  | .ServicesTag t => encHead 4 2 ++ encUInt 5 ++ encHead 4 1 ++ encUInt t

def GetSet.decode (bs : List Nat) : Option (GetSet × List Nat) := do
  let r ← expHead 4 2 bs
  let (idx, r) ← decUInt (2 ^ 32) r
  match idx with
  | 0 => do
    let r ← expHead 4 0 r
    some (GetSet.Ok, r)
  | 1 => do
    let r ← expHead 4 1 r
    let (m, r) ← decText r
    some (GetSet.Error m, r)
  | 2 => do
    let r ← expHead 4 1 r
    let (s, r) ← decText r
    some (GetSet.Name s, r)
  | 3 => do
    let r ← expHead 4 1 r
    let (ps, r) ← decArr PeerInfo.decode r
    some (GetSet.Peers ps, r)
  | 4 => do
    let r ← expHead 4 1 r
    let (s, r) ← decText r
    some (GetSet.Connect s, r)
  | 5 => do
    let r ← expHead 4 1 r
    let (t, r) ← decUInt (2 ^ 32) r
    some (GetSet.ServicesTag t, r)
  | _ => none

def Event.encode : Event → List Nat
  | .ClientUpdate add cid svcs =>
    encHead 4 2 ++ encUInt 0 ++ encHead 4 3 ++ encBool add ++ encUInt cid
      ++ encArr encUInt svcs
  | .PeerUpdate p => encHead 4 2 ++ encUInt 1 ++ encHead 4 1 ++ p.encode
  | .ServiceUpdate svc m =>
    encHead 4 2 ++ encUInt 2 ++ encHead 4 2 ++ encUInt svc
      ++ encMap encText (encArr encUInt) m

def Event.decode (bs : List Nat) : Option (Event × List Nat) := do
  let r ← expHead 4 2 bs
  let (idx, r) ← decUInt (2 ^ 32) r
  match idx with
  | 0 => do
    let r ← expHead 4 3 r
    let (add, r) ← decBool r
    let (cid, r) ← decUInt (2 ^ 16) r
    let (svcs, r) ← decArr (decUInt (2 ^ 16)) r
    some (Event.ClientUpdate add cid svcs, r)
  | 1 => do
    let r ← expHead 4 1 r
    let (p, r) ← PeerInfo.decode r
    some (Event.PeerUpdate p, r)
  | 2 => do
    let r ← expHead 4 2 r
    let (svc, r) ← decUInt (2 ^ 16) r
    let (m, r) ← decMap decText (decArr (decUInt (2 ^ 16))) r
    some (Event.ServiceUpdate svc m, r)
  | _ => none

/-- `Message::to_bytes` (serialization never fails when writing to a
vector, so the `Option` in the Rust signature is always `Some`). -/
def Message.to_bytes : Message → List Nat
  | .Ok => encHead 4 2 ++ encUInt 0 ++ encHead 4 0
  | .Error m => encHead 4 2 ++ encUInt 1 ++ encHead 4 1 ++ encText m
  | .FileMessage tp fp tc fc content =>
    encHead 4 2 ++ encUInt 2 ++ encHead 4 5 ++ encText tp ++ encText fp
      ++ encUInt tc ++ encUInt fc ++ encArr encUInt content
  | .Register svcs chat files =>
    encHead 4 2 ++ encUInt 3 ++ encHead 4 3 ++ encArr encUInt svcs
      ++ encBool chat ++ encBool files
  | .RegisterOk cid => encHead 4 2 ++ encUInt 4 ++ encHead 4 1 ++ encUInt cid
  | .Get cid rid content =>
    encHead 4 2 ++ encUInt 5 ++ encHead 4 3 ++ encUInt cid ++ encUInt rid
      ++ content.encode
  | .Set cid rid content =>
    encHead 4 2 ++ encUInt 6 ++ encHead 4 3 ++ encUInt cid ++ encUInt rid
      ++ content.encode
  | .Msg tp fp tc fc svc content =>
    encHead 4 2 ++ encUInt 7 ++ encHead 4 6 ++ encText tp ++ encText fp
      ++ encUInt tc ++ encUInt fc ++ encUInt svc ++ encBytes content
  | .Event tc fc ev =>
    encHead 4 2 ++ encUInt 8 ++ encHead 4 3 ++ encUInt tc ++ encUInt fc ++ ev.encode

def Message.decode (bs : List Nat) : Option (Message × List Nat) := do
  let r ← expHead 4 2 bs
  let (idx, r) ← decUInt (2 ^ 32) r
  match idx with
  | 0 => do
    let r ← expHead 4 0 r
    some (Message.Ok, r)
  | 1 => do
    let r ← expHead 4 1 r
    let (m, r) ← decText r
    some (Message.Error m, r)
  | 2 => do
    let r ← expHead 4 5 r
    let (tp, r) ← decText r
    let (fp, r) ← decText r
    let (tc, r) ← decUInt (2 ^ 16) r
    let (fc, r) ← decUInt (2 ^ 16) r
    let (content, r) ← decArr (decUInt (2 ^ 8)) r
    some (Message.FileMessage tp fp tc fc content, r)
  | 3 => do
    let r ← expHead 4 3 r
    let (svcs, r) ← decArr (decUInt (2 ^ 16)) r
    let (chat, r) ← decBool r
    let (files, r) ← decBool r
    some (Message.Register svcs chat files, r)
  | 4 => do
    let r ← expHead 4 1 r
    let (cid, r) ← decUInt (2 ^ 16) r
    some (Message.RegisterOk cid, r)
  | 5 => do
    let r ← expHead 4 3 r
    let (cid, r) ← decUInt (2 ^ 16) r
    let (rid, r) ← decUInt (2 ^ 32) r
    let (content, r) ← GetSet.decode r
    some (Message.Get cid rid content, r)
  | 6 => do
    let r ← expHead 4 3 r
    let (cid, r) ← decUInt (2 ^ 16) r
    let (rid, r) ← decUInt (2 ^ 32) r
    let (content, r) ← GetSet.decode r
    some (Message.Set cid rid content, r)
  | 7 => do
    let r ← expHead 4 6 r
    let (tp, r) ← decText r
    let (fp, r) ← decText r
    let (tc, r) ← decUInt (2 ^ 16) r
    let (fc, r) ← decUInt (2 ^ 16) r
    let (svc, r) ← decUInt (2 ^ 16) r
    let (content, r) ← decBytes r
    some (Message.Msg tp fp tc fc svc content, r)
  | 8 => do
    let r ← expHead 4 3 r
    let (tc, r) ← decUInt (2 ^ 16) r
    let (fc, r) ← decUInt (2 ^ 16) r
    let (ev, r) ← Event.decode r
    some (Message.Event tc fc ev, r)
  | _ => none

/-- `Message::from_bytes`: decode one message from the byte buffer
(minicbor ignores trailing bytes). -/
def Message.from_bytes (bs : List Nat) : Option Message :=
  (Message.decode bs).map Prod.fst

/-- Well-formedness of a `PeerInfo` value as the image of the Rust type:
the numeric fields fit their machine types and string lengths fit `u64`. -/
def PeerInfo.wf (p : PeerInfo) : Bool :=
  decide (p.peer_id.length < 2 ^ 64) && decide (p.name.length < 2 ^ 64)
    && decide (p.services_tag < 2 ^ 32) && decide (p.last_update < 2 ^ 64)

def GetSet.wf : GetSet → Bool
  | .Ok => true
  | .Error m => decide (m.length < 2 ^ 64)
  | .Name s => decide (s.length < 2 ^ 64)
  | .Peers ps => decide (ps.length < 2 ^ 64) && ps.all PeerInfo.wf
  | .Connect s => decide (s.length < 2 ^ 64)
  | .ServicesTag t => decide (t < 2 ^ 32)

def Event.wf : Event → Bool
  | .ClientUpdate _ cid svcs =>
    decide (cid < 2 ^ 16) && decide (svcs.length < 2 ^ 64)
      && svcs.all (fun s => decide (s < 2 ^ 16))
  | .PeerUpdate p => p.wf
  | .ServiceUpdate svc m =>
    decide (svc < 2 ^ 16) && decide (m.length < 2 ^ 64)
      && m.all (fun kv => decide (kv.1.length < 2 ^ 64) && decide (kv.2.length < 2 ^ 64)
        && kv.2.all (fun s => decide (s < 2 ^ 16)))

/-- Well-formedness of a `Message` value as the image of the Rust type. -/
def Message.wf : Message → Bool
  | .Ok => true
  | .Error m => decide (m.length < 2 ^ 64)
  | .FileMessage tp fp tc fc content =>
    decide (tp.length < 2 ^ 64) && decide (fp.length < 2 ^ 64)
      && decide (tc < 2 ^ 16) && decide (fc < 2 ^ 16)
      && decide (content.length < 2 ^ 64) && content.all (fun b => decide (b < 2 ^ 8))
  | .Register svcs _ _ =>
    decide (svcs.length < 2 ^ 64) && svcs.all (fun s => decide (s < 2 ^ 16))
  | .RegisterOk cid => decide (cid < 2 ^ 16)
  | .Get cid rid content =>
    decide (cid < 2 ^ 16) && decide (rid < 2 ^ 32) && content.wf
  | .Set cid rid content =>
    decide (cid < 2 ^ 16) && decide (rid < 2 ^ 32) && content.wf
  | .Msg tp fp tc fc svc content =>
    decide (tp.length < 2 ^ 64) && decide (fp.length < 2 ^ 64)
      && decide (tc < 2 ^ 16) && decide (fc < 2 ^ 16) && decide (svc < 2 ^ 16)
      && decide (content.length < 2 ^ 64)
  | .Event tc fc ev => decide (tc < 2 ^ 16) && decide (fc < 2 ^ 16) && ev.wf

end Codec

/-- Wrapping `u64` subtraction (`a - b` on `u64` in release mode), for
`a, b < 2 ^ 64`. -/
def sub64 (a b : Nat) : Nat := (a + 2 ^ 64 - b) % 2 ^ 64

/-! ## The daemon router of `src/daemon.rs`

This revision of the router speaks the message set of
`src/daemon_message.rs`; per-client service registration is the pair of
`chat_support`/`file_support` flags set by `Register` (the file service
is the one a `FileMessage` belongs to).  The router also matches on the
`ConnectAddress` and `GetName` variants present in the message revision
it was written against, so the modelled `Message` type carries them too. -/

namespace DaemonMsg

structure PeerInfo where
  peer_id : String
  name : String
  chat_support : Bool
  file_support : Bool
  last_update : Nat
  deriving DecidableEq

inductive GetSet where
  | Ok : GetSet
  | Error : (message : String) → GetSet
  | Name : (name : String) → GetSet
  | Peers : (peers : List PeerInfo) → GetSet
  | Connect : (address : String) → GetSet
  deriving DecidableEq

inductive Message where
  | Ok : Message
  | Error : (message : String) → Message
  | ConnectAddress : (address : String) → Message
  | GetName : (name : String) → Message
  | SetName : (name : String) → Message
  | GetPeers : (peers : List PeerInfo) → Message
  | ChatMessage : (to_ from_ from_name message : String) → Message
  | FileMessage : (to_peer from_peer : String) → (to_client from_client : Nat) →
      (content : List Nat) → Message
  | Register : (chat files : Bool) → Message
  | RegisterOk : (client_id : Nat) → Message
  | Get : (client_id request_id : Nat) → (content : GetSet) → Message
  | Set : (client_id request_id : Nat) → (content : GetSet) → Message
  deriving DecidableEq

/-- `Message::ALL_CLIENTS`: client id addressing all clients on a peer. -/
def Message.ALL_CLIENTS : Nat := 65535

end DaemonMsg

namespace Daemon

/-- Client bookkeeping of the router; the mpsc `sender` is modelled as
the list of messages enqueued on it, in order. -/
structure ClientInfo where
  sender : List DaemonMsg.Message
  chat_support : Bool
  file_support : Bool
  deriving DecidableEq

/-- Enqueue one message on a client's outbox channel. -/
def enqueue (c : ClientInfo) (m : DaemonMsg.Message) : ClientInfo :=
  { c with sender := c.sender ++ [m] }

/-- The frame built by the `send` helper inside the
`swarm::Event::FileMessage` arm of `run_server_loop`: `to_peer` is the
empty string, the other fields are copied through. -/
def file_frame (from_peer : String) (to_client from_client : Nat)
    (content : List Nat) : DaemonMsg.Message :=
  .FileMessage "" from_peer to_client from_client content

/-- The `swarm::Event::FileMessage(from_peer, from_client, to_client,
content)` arm of `run_server_loop` (daemon.rs lines 228-267): broadcast
to every client with `file_support`, otherwise deliver to the client
keyed `to_client` if present. -/
def handle_event_file_message (clients : List (Nat × ClientInfo)) (from_peer : String)
    (from_client to_client : Nat) (content : List Nat) : List (Nat × ClientInfo) :=
  if to_client = DaemonMsg.Message.ALL_CLIENTS then
    clients.map (fun e =>
      if e.2.file_support then
        (e.1, enqueue e.2 (file_frame from_peer to_client from_client content))
      else e)
  else if clients.any (fun e => decide (e.1 = to_client)) then
    clients.map (fun e =>
      if e.1 = to_client then
        (e.1, enqueue e.2 (file_frame from_peer to_client from_client content))
      else e)
  else clients

/-- `Daemon::handle_timer` (daemon.rs lines 141-157): collect the ids of
peers with `current_secs - last_update > 30` (u64 subtraction), then
remove those keys from the peer map. -/
def handle_timer (now : Nat) (peers : List (String × DaemonMsg.PeerInfo)) :
    List (String × DaemonMsg.PeerInfo) :=
  let remove_peers :=
    (peers.filter (fun e => decide (30 < sub64 now e.2.last_update))).map
      (fun e => e.2.peer_id)
  peers.filter (fun e => decide (e.1 ∉ remove_peers))

structure DaemonState where
  client_id : Nat
  clients : List (Nat × ClientInfo)
  deriving DecidableEq

/-- The id update at the end of `Daemon::handle_connection`: increment
(`u16`), then skip `ALL_CLIENTS` by resetting to 1. -/
def next_client_id (id : Nat) : Nat :=
  let id := (id + 1) % 2 ^ 16
  if id = DaemonMsg.Message.ALL_CLIENTS then 1 else id

/-- `Daemon::handle_connection` (daemon.rs lines 124-139): spawn the
client handler under the current `client_id` (returned here as the
assigned id) and update the counter.  The client map is untouched (the
handler registers itself later through an `AddClient` event). -/
def handle_connection (s : DaemonState) : Nat × DaemonState :=
  (s.client_id, { s with client_id := next_client_id s.client_id })

/-- Commands the router sends to the overlay swarm. -/
inductive SwarmCmd where
  | ConnectAddress : (address : String) → SwarmCmd
  | SetName : (name : String) → SwarmCmd
  | SetChat : (enabled : Bool) → SwarmCmd
  | SendChatMessage : (to_ message : String) → SwarmCmd
  | SetFiles : (enabled : Bool) → SwarmCmd
  | SendFileMessage : (to_peer : String) → (to_client from_client : Nat) →
      (content : List Nat) → SwarmCmd
  deriving DecidableEq

/-- The reply match of the `Event::ClientMessage(id, msg)` arm of
`run_server_loop` (daemon.rs lines 332-479): returns the updated client
record, the reply sent back on the client's channel (`none` models
`continue`), and the events sent to the swarm, in order. -/
def handle_client_message (peers : List DaemonMsg.PeerInfo) (id : Nat) (client : ClientInfo) :
    DaemonMsg.Message → ClientInfo × Option DaemonMsg.Message × List SwarmCmd
  | .Ok => (client, some .Ok, [])
  | .Error _ => (client, none, [])
  | .ConnectAddress address => (client, some .Ok, [.ConnectAddress address])
  | .GetName _ => (client, some (.Error "Not yet implemented"), [])
  | .SetName name => (client, some .Ok, [.SetName name])
  | .GetPeers _ => (client, some (.GetPeers peers), [])
  | .ChatMessage to_ _ _ message =>
    if to_ = "all" then
      (client, some .Ok,
        (peers.filter (fun p => p.chat_support)).map
          (fun p => .SendChatMessage p.peer_id message))
    else (client, some .Ok, [.SendChatMessage to_ message])
  | .FileMessage to_peer _ to_client from_client content =>
    if to_peer = "all" then
      (client, some .Ok,
        (peers.filter (fun p => p.file_support)).map
          (fun p => .SendFileMessage p.peer_id to_client from_client content))
    else (client, some .Ok, [.SendFileMessage to_peer to_client from_client content])
  | .Register chat files =>
    ({ client with chat_support := chat, file_support := files },
      some (.RegisterOk id), [.SetChat chat, .SetFiles files])
  | .Get client_id request_id content =>
    let content : DaemonMsg.GetSet :=
      match content with
      | .Name _ => .Error "Not yet implemented"
      | .Peers _ => .Peers peers
      | _ => .Error "Unknown get request"
    (client, some (.Get client_id request_id content), [])
  | .Set client_id request_id content =>
    match content with
    | .Name name => (client, some (.Set client_id request_id .Ok), [.SetName name])
    | .Connect address =>
      (client, some (.Set client_id request_id .Ok), [.ConnectAddress address])
    | _ => (client, some (.Set client_id request_id (.Error "Unknown set request")), [])
  | .RegisterOk _ => (client, none, [])

end Daemon

/-! ## The service-directory client of `src/client/service/client.rs` -/

namespace Service

/-- `ServiceMap`: services tag plus the map from client id to the set of
services the client supports. -/
structure ServiceMap where
  services_tag : Nat
  services : List (Nat × List Nat)
  deriving DecidableEq

/-- `ServiceClient` state (`local` is a Lean keyword, hence
`local_map`). -/
structure ServiceClient where
  client_id : Nat
  request_id : Nat
  local_map : ServiceMap
  peers : List (String × ServiceMap)
  deriving DecidableEq

/-- `ServiceClient::get_request_id`: wrapping `u32` increment, returns
the new value. -/
def get_request_id (sc : ServiceClient) : ServiceClient × Nat :=
  let r := (sc.request_id + 1) % 2 ^ 32
  ({ sc with request_id := r }, r)

/-- `ServiceClient::update_services_tag` (lines 120-132): tag is 0, and
is replaced by the value drawn from `rand::random()` (passed in as
`rand`) whenever the local service map is non-empty; then a
`Set{ServicesTag(tag)}` message is sent to the daemon (returned). -/
def update_services_tag (sc : ServiceClient) (rand : Nat) : ServiceClient × Codec.Message :=
  let tag := if sc.local_map.services.isEmpty then 0 else rand
  let sc := { sc with local_map := { sc.local_map with services_tag := tag } }
  let (sc, rid) := get_request_id sc
  (sc, Codec.Message.Set sc.client_id rid (Codec.GetSet.ServicesTag tag))

/-- `ServiceClient::handle_event_client_update` (lines 179-208): an empty
services set means removal; otherwise insert or overwrite the entry;
finally refresh the services tag. -/
def handle_event_client_update (sc : ServiceClient) (add : Bool) (client_id : Nat)
    (services : List Nat) (rand : Nat) : ServiceClient × Codec.Message :=
  let add := if services.isEmpty then false else add
  let svc :=
    if add then
      if sc.local_map.services.any (fun e => decide (e.1 = client_id)) then
        sc.local_map.services.map (fun e => if e.1 = client_id then (e.1, services) else e)
      else sc.local_map.services ++ [(client_id, services)]
    else sc.local_map.services.filter (fun e => decide (e.1 ≠ client_id))
  update_services_tag { sc with local_map := { sc.local_map with services := svc } } rand

end Service

/-! ## The file-transfer state machine of `src/client/file/client.rs`

File handles are modelled by their presence (`io : Bool`), and the
results of the file-system calls (`open`, `read`, `write`) are passed in
as oracle arguments.  Clock reads are passed in as `now`. -/

/-- `CHUNK_SIZE`: size of the data in a chunk in bytes. -/
def CHUNK_SIZE : Nat := 512

/-- `IDLE_TIMEOUT`: idle timeout of a transfer in seconds. -/
def IDLE_TIMEOUT : Nat := 30

/-- The file client's `FileMessage` enum (its `List` variant is
`ListRequest` here because `List` collides with the Lean type). -/
inductive FileMessage where
  | ListRequest : FileMessage
  | ListReply : List (String × Nat) → FileMessage
  | Get : Nat → String → FileMessage
  | Chunk : Nat → List Nat → FileMessage
  | ChunkAck : Nat → FileMessage
  deriving DecidableEq

inductive FTState where
  | New : FTState
  | SendChunk : FTState
  | SendAck : FTState
  | SendLastAck : FTState
  | WaitChunk : FTState
  | WaitAck : FTState
  | WaitLastAck : FTState
  | Done : FTState
  | Error : (message : String) → FTState
  deriving DecidableEq

/-- `FileTransfer` (`from` is a Lean keyword, hence `from_`). -/
structure FileTransfer where
  id : Nat
  from_ : String
  to_ : String
  file : String
  state : FTState
  io : Bool
  created_at : Nat
  last_active : Nat
  completed_at : Nat
  num_bytes : Nat
  deriving DecidableEq

namespace FileTransfer

def is_done (ft : FileTransfer) : Bool :=
  match ft.state with
  | .Done => true
  | _ => false

def is_error (ft : FileTransfer) : Bool :=
  match ft.state with
  | .Error _ => true
  | _ => false

/-- upload is from `""` to the other peer id. -/
def is_upload (ft : FileTransfer) : Bool := decide (ft.from_ = "")

def reset_timeout (ft : FileTransfer) (now : Nat) : FileTransfer :=
  { ft with last_active := now }

/-- `FileTransfer::complete`: terminal states stay untouched; otherwise
drop the handle, stamp `completed_at` and move to `Done` or `Error`. -/
def complete (ft : FileTransfer) (now : Nat) (error : Option String) : FileTransfer :=
  if ft.is_done || ft.is_error then ft
  else
    let ft := { ft with io := false, completed_at := now }
    match error with
    | none => { ft with state := .Done }
    | some e => { ft with state := .Error e }

def cancel (ft : FileTransfer) (now : Nat) : FileTransfer :=
  ft.complete now (some "Canceled by user")

/-- `FileTransfer::check_timeout`: terminal states stay untouched;
otherwise transfers idle for more than `IDLE_TIMEOUT` seconds (u64
subtraction) complete with a timeout error. -/
def check_timeout (ft : FileTransfer) (now : Nat) : FileTransfer :=
  if ft.is_done || ft.is_error then ft
  else if IDLE_TIMEOUT < sub64 now ft.last_active then ft.complete now (some "Timeout")
  else ft

/-- `FileTransfer::get_data_rate`. -/
def get_data_rate (ft : FileTransfer) : Nat :=
  let time := if 0 < ft.completed_at then ft.completed_at else ft.last_active
  if time ≤ ft.created_at then 0
  else ft.num_bytes / (time - ft.created_at)

def is_valid_sender (ft : FileTransfer) (from_ : String) : Bool :=
  if ft.is_upload then decide (from_ = ft.to_) else decide (from_ = ft.from_)

/-- `FileTransfer::handle_upload`. -/
def handle_upload (ft : FileTransfer) (now : Nat) (message : FileMessage) : FileTransfer :=
  match message with
  | .ChunkAck _ =>
    match ft.state with
    | .WaitAck => { ft with state := .SendChunk }
    | .WaitLastAck => ft.complete now none
    | _ => ft
  | _ => ft

/-- `FileTransfer::write_next_chunk`: refresh the timeout, add the chunk
length to `num_bytes` (u64), and report whether the write succeeded
(`writeOk` is the oracle for `write_all`; a missing handle fails). -/
def write_next_chunk (ft : FileTransfer) (now : Nat) (len : Nat) (writeOk : Bool) :
    FileTransfer × Bool :=
  let ft := ft.reset_timeout now
  let ft := { ft with num_bytes := (ft.num_bytes + len) % 2 ^ 64 }
  if ft.io then (ft, writeOk) else (ft, false)

/-- `FileTransfer::handle_download` (lines 211-229). -/
def handle_download (ft : FileTransfer) (now : Nat) (message : FileMessage)
    (writeOk : Bool) : FileTransfer :=
  match message with
  | .Chunk _ data =>
    match ft.state with
    | .WaitChunk =>
      let ft :=
        { ft with state := if data.length < CHUNK_SIZE then .SendLastAck else .SendAck }
      let r := ft.write_next_chunk now data.length writeOk
      if r.2 then r.1 else { r.1 with state := .Error "Error writing file" }
    | _ => ft
  | _ => ft

/-- `FileTransfer::handle`. -/
def handle (ft : FileTransfer) (now : Nat) (message : FileMessage) (writeOk : Bool) :
    FileTransfer :=
  if ft.is_upload then ft.handle_upload now message
  else ft.handle_download now message writeOk

/-- `FileTransfer::read_next_chunk` (`readResult` is the oracle for the
`take(CHUNK_SIZE).read_to_end` call; a missing handle fails). -/
def read_next_chunk (ft : FileTransfer) (now : Nat) (readResult : Option (List Nat)) :
    FileTransfer × Option (List Nat) :=
  let ft := ft.reset_timeout now
  if ft.io then
    match readResult with
    | some buf => ({ ft with num_bytes := (ft.num_bytes + buf.length) % 2 ^ 64 }, some buf)
    | none => (ft, none)
  else (ft, none)

/-- `FileTransfer::next_chunk_message`. -/
def next_chunk_message (ft : FileTransfer) (now : Nat) (readResult : Option (List Nat)) :
    FileTransfer × Option FileMessage :=
  let ft := { ft with state := .WaitAck }
  let r := ft.read_next_chunk now readResult
  match r.2 with
  | some data =>
    let ft := if data.length < CHUNK_SIZE then { r.1 with state := .WaitLastAck } else r.1
    (ft, some (.Chunk ft.id data))
  | none => ({ r.1 with state := .Error "Error reading file" }, none)

/-- `FileTransfer::next` (lines 302-349); `openOk` is the oracle for
`open_read_file`/`open_write_file`. -/
def next (ft : FileTransfer) (now : Nat) (openOk : Bool)
    (readResult : Option (List Nat)) : FileTransfer × Option FileMessage :=
  match ft.state with
  | .New =>
    let ft := { ft with io := openOk }
    if ft.io then
      if ft.is_upload then ft.next_chunk_message now readResult
      else ({ ft with state := .WaitChunk }, some (.Get ft.id ft.file))
    else ({ ft with state := .Error "Error opening file" }, none)
  | .SendChunk => ft.next_chunk_message now readResult
  | .SendAck => ({ ft with state := .WaitChunk }, some (.ChunkAck ft.id))
  | .SendLastAck => (ft.complete now none, some (.ChunkAck ft.id))
  | _ => (ft, none)

end FileTransfer

/-! ## Lemmas for the CBOR primitives -/

theorem beBytes_length (k n : Nat) : (beBytes k n).length = k := by
  induction k generalizing n with
  | zero => rfl
  | succ k ih => simp [beBytes, ih]

theorem fromBE_beBytes (k n : Nat) (h : n < 256 ^ k) : fromBE (beBytes k n) = n := by
  induction k generalizing n with
  | zero =>
    interval_cases n
    rfl
  | succ k ih =>
    have hdiv : n / 256 < 256 ^ k := by
      rw [Nat.div_lt_iff_lt_mul (by norm_num)]
      calc n < 256 ^ (k + 1) := h
        _ = 256 ^ k * 256 := by ring
    unfold beBytes fromBE
    rw [List.foldl_append]
    have := ih (n / 256) hdiv
    unfold fromBE at this
    rw [this]
    simp only [List.foldl_cons, List.foldl_nil]
    omega

theorem decHead_fixed (major info k arg : Nat) (hi1 : 24 ≤ info) (hi2 : info ≤ 27)
    (hk : k = 2 ^ (info - 24)) (h : arg < 256 ^ k) (rest : List Nat) :
    decHead ((32 * major + info) :: (beBytes k arg ++ rest)) = some (major, arg, rest) := by
  have hb : (32 * major + info) / 32 = major := by omega
  have hb2 : (32 * major + info) % 32 = info := by omega
  have hlen : ¬ (beBytes k arg ++ rest).length < k := by
    simp [beBytes_length]
  unfold decHead
  simp only [hb, hb2]
  rw [if_neg (by omega), if_pos hi2, ← hk, if_neg hlen]
  rw [List.take_left' (beBytes_length k arg), List.drop_left' (beBytes_length k arg)]
  rw [fromBE_beBytes k arg h]

theorem decHead_encHead (major arg : Nat) (ha : arg < 2 ^ 64)
    (rest : List Nat) :
    decHead (encHead major arg ++ rest) = some (major, arg, rest) := by
  unfold encHead
  by_cases h24 : arg < 24
  · rw [if_pos h24]
    have hb : (32 * major + arg) / 32 = major := by omega
    have hb2 : (32 * major + arg) % 32 = arg := by omega
    simp [decHead, hb, hb2, h24]
  · rw [if_neg h24]
    by_cases h8 : arg < 2 ^ 8
    · rw [if_pos h8, List.cons_append]
      exact decHead_fixed major 24 1 arg (by omega) (by omega) (by norm_num)
        (by norm_num at h8 ⊢; omega) rest
    · rw [if_neg h8]
      by_cases h16 : arg < 2 ^ 16
      · rw [if_pos h16, List.cons_append]
        exact decHead_fixed major 25 2 arg (by omega) (by omega) (by norm_num)
          (by norm_num at h16 ⊢; omega) rest
      · rw [if_neg h16]
        by_cases h32 : arg < 2 ^ 32
        · rw [if_pos h32, List.cons_append]
          exact decHead_fixed major 26 4 arg (by omega) (by omega) (by norm_num)
            (by norm_num at h32 ⊢; omega) rest
        · rw [if_neg h32, List.cons_append]
          exact decHead_fixed major 27 8 arg (by omega) (by omega) (by norm_num)
            (by norm_num at ha ⊢; omega) rest

/-! ### Round-trip lemmas for the element codecs -/

theorem decUInt_enc (bound n : Nat) (hb : bound ≤ 2 ^ 64) (h : n < bound)
    (rest : List Nat) : decUInt bound (encUInt n ++ rest) = some (n, rest) := by
  unfold decUInt encUInt
  rw [decHead_encHead 0 n (by omega) rest]
  simp [h]

theorem decBool_enc (b : Bool) (rest : List Nat) :
    decBool (encBool b ++ rest) = some (b, rest) := by
  cases b <;> simp [decBool, encBool, decHead]

theorem decText_enc (s : List Nat) (h : s.length < 2 ^ 64) (rest : List Nat) :
    decText (encText s ++ rest) = some (s, rest) := by
  unfold decText encText
  rw [List.append_assoc, decHead_encHead 3 s.length h (s ++ rest)]
  simp only []
  rw [if_neg (by simp), List.take_left, List.drop_left]

theorem decBytes_enc (s : List Nat) (h : s.length < 2 ^ 64) (rest : List Nat) :
    decBytes (encBytes s ++ rest) = some (s, rest) := by
  unfold decBytes encBytes
  rw [List.append_assoc, decHead_encHead 2 s.length h (s ++ rest)]
  simp only []
  rw [if_neg (by simp), List.take_left, List.drop_left]

theorem decN_enc (f : α → List Nat) (dec : List Nat → Option (α × List Nat))
    (xs : List α)
    (hdec : ∀ x ∈ xs, ∀ r : List Nat, dec (f x ++ r) = some (x, r))
    (rest : List Nat) :
    decN dec xs.length (encSeq f xs ++ rest) = some (xs, rest) := by
  induction xs with
  | nil => simp [decN, encSeq]
  | cons x xs ih =>
    have hx := hdec x (by simp)
    have hxs : ∀ y ∈ xs, ∀ r : List Nat, dec (f y ++ r) = some (y, r) := by
      intro y hy r
      exact hdec y (List.mem_cons_of_mem x hy) r
    simp only [encSeq, List.map_cons, List.flatten_cons, List.length_cons]
    rw [List.append_assoc]
    unfold decN
    rw [hx (List.flatten (List.map f xs) ++ rest)]
    dsimp only
    rw [show List.flatten (List.map f xs) = encSeq f xs from rfl, ih hxs]

theorem decArr_enc (f : α → List Nat) (dec : List Nat → Option (α × List Nat))
    (xs : List α) (hlen : xs.length < 2 ^ 64)
    (hdec : ∀ x ∈ xs, ∀ r : List Nat, dec (f x ++ r) = some (x, r))
    (rest : List Nat) :
    decArr dec (encArr f xs ++ rest) = some (xs, rest) := by
  unfold decArr encArr
  rw [List.append_assoc, decHead_encHead 4 xs.length hlen (encSeq f xs ++ rest)]
  exact decN_enc f dec xs hdec rest

theorem decPair_enc (fk : α → List Nat) (fv : β → List Nat)
    (decK : List Nat → Option (α × List Nat)) (decV : List Nat → Option (β × List Nat))
    (p : α × β)
    (hk : ∀ r : List Nat, decK (fk p.1 ++ r) = some (p.1, r))
    (hv : ∀ r : List Nat, decV (fv p.2 ++ r) = some (p.2, r))
    (rest : List Nat) :
    decPair decK decV ((fk p.1 ++ fv p.2) ++ rest) = some (p, rest) := by
  unfold decPair
  rw [List.append_assoc, hk (fv p.2 ++ rest)]
  dsimp only
  rw [hv rest]

theorem decMap_enc (fk : α → List Nat) (fv : β → List Nat)
    (decK : List Nat → Option (α × List Nat)) (decV : List Nat → Option (β × List Nat))
    (xs : List (α × β)) (hlen : xs.length < 2 ^ 64)
    (hk : ∀ p ∈ xs, ∀ r : List Nat, decK (fk p.1 ++ r) = some (p.1, r))
    (hv : ∀ p ∈ xs, ∀ r : List Nat, decV (fv p.2 ++ r) = some (p.2, r))
    (rest : List Nat) :
    decMap decK decV (encMap fk fv xs ++ rest) = some (xs, rest) := by
  unfold decMap encMap
  rw [List.append_assoc, decHead_encHead 5 xs.length hlen _]
  exact decN_enc (fun p => fk p.1 ++ fv p.2) (decPair decK decV) xs
    (fun p hp r => decPair_enc fk fv decK decV p (hk p hp) (hv p hp) r) rest

theorem expHead_enc (major arg : Nat) (h : arg < 2 ^ 64) (rest : List Nat) :
    expHead major arg (encHead major arg ++ rest) = some rest := by
  unfold expHead
  rw [decHead_encHead major arg h rest]
  simp

/-! ## Round-trip lemmas for the message codec -/

namespace Codec

theorem decU8_enc (n : Nat) (h : n < 2 ^ 8) (rest : List Nat) :
    decUInt (2 ^ 8) (encUInt n ++ rest) = some (n, rest) :=
  decUInt_enc _ _ (by norm_num) h rest

theorem decU16_enc (n : Nat) (h : n < 2 ^ 16) (rest : List Nat) :
    decUInt (2 ^ 16) (encUInt n ++ rest) = some (n, rest) :=
  decUInt_enc _ _ (by norm_num) h rest

theorem decU32_enc (n : Nat) (h : n < 2 ^ 32) (rest : List Nat) :
    decUInt (2 ^ 32) (encUInt n ++ rest) = some (n, rest) :=
  decUInt_enc _ _ (by norm_num) h rest

theorem decU64_enc (n : Nat) (h : n < 2 ^ 64) (rest : List Nat) :
    decUInt (2 ^ 64) (encUInt n ++ rest) = some (n, rest) :=
  decUInt_enc _ _ (by norm_num) h rest

theorem PeerInfo.decode_encode_peerInfo (p : PeerInfo) (hp : p.wf = true) (rest : List Nat) :
    PeerInfo.decode (p.encode ++ rest) = some (p, rest) := by
  simp only [PeerInfo.wf, Bool.and_eq_true, decide_eq_true_eq] at hp
  obtain ⟨⟨⟨h1, h2⟩, h3⟩, h4⟩ := hp
  unfold PeerInfo.encode PeerInfo.decode
  simp only [List.append_assoc]
  rw [expHead_enc 4 5 (by norm_num)]
  simp only [Option.bind_eq_bind, Option.some_bind']
  rw [decText_enc _ h1]
  simp only [Option.bind_eq_bind, Option.some_bind']
  rw [decText_enc _ h2]
  simp only [Option.bind_eq_bind, Option.some_bind']
  rw [decU32_enc _ h3]
  simp only [Option.bind_eq_bind, Option.some_bind']
  rw [decBool_enc]
  simp only [Option.bind_eq_bind, Option.some_bind']
  rw [decU64_enc _ h4]
  simp only [Option.bind_eq_bind, Option.some_bind']

theorem GetSet.decode_encode_getSet (g : GetSet) (hg : g.wf = true) (rest : List Nat) :
    GetSet.decode (g.encode ++ rest) = some (g, rest) := by
  cases g with
  | Ok =>
    unfold GetSet.encode GetSet.decode
    simp only [List.append_assoc]
    rw [expHead_enc 4 2 (by norm_num)]
    simp only [Option.bind_eq_bind, Option.some_bind']
    rw [decU32_enc 0 (by norm_num)]
    simp only [Option.bind_eq_bind, Option.some_bind']
    rw [show (encHead 4 0 ++ rest) = (encHead 4 0 ++ rest) from rfl,
      expHead_enc 4 0 (by norm_num)]
    simp only [Option.bind_eq_bind, Option.some_bind']
  | Error m =>
    simp only [GetSet.wf, decide_eq_true_eq] at hg
    unfold GetSet.encode GetSet.decode
    simp only [List.append_assoc]
    rw [expHead_enc 4 2 (by norm_num)]
    simp only [Option.bind_eq_bind, Option.some_bind']
    rw [decU32_enc 1 (by norm_num)]
    simp only [Option.bind_eq_bind, Option.some_bind']
    rw [expHead_enc 4 1 (by norm_num)]
    simp only [Option.bind_eq_bind, Option.some_bind']
    rw [decText_enc _ hg]
    simp only [Option.bind_eq_bind, Option.some_bind']
  | Name s =>
    simp only [GetSet.wf, decide_eq_true_eq] at hg
    unfold GetSet.encode GetSet.decode
    simp only [List.append_assoc]
    rw [expHead_enc 4 2 (by norm_num)]
    simp only [Option.bind_eq_bind, Option.some_bind']
    rw [decU32_enc 2 (by norm_num)]
    simp only [Option.bind_eq_bind, Option.some_bind']
    rw [expHead_enc 4 1 (by norm_num)]
    simp only [Option.bind_eq_bind, Option.some_bind']
    rw [decText_enc _ hg]
    simp only [Option.bind_eq_bind, Option.some_bind']
  | Peers ps =>
    simp only [GetSet.wf, Bool.and_eq_true, decide_eq_true_eq, List.all_eq_true] at hg
    obtain ⟨hlen, hall⟩ := hg
    unfold GetSet.encode GetSet.decode
    simp only [List.append_assoc]
    rw [expHead_enc 4 2 (by norm_num)]
    simp only [Option.bind_eq_bind, Option.some_bind']
    rw [decU32_enc 3 (by norm_num)]
    simp only [Option.bind_eq_bind, Option.some_bind']
    rw [expHead_enc 4 1 (by norm_num)]
    simp only [Option.bind_eq_bind, Option.some_bind']
    rw [decArr_enc PeerInfo.encode PeerInfo.decode ps hlen
      (fun p hp r => PeerInfo.decode_encode_peerInfo p (hall p hp) r)]
    simp only [Option.bind_eq_bind, Option.some_bind']
  | Connect s =>
    simp only [GetSet.wf, decide_eq_true_eq] at hg
    unfold GetSet.encode GetSet.decode
    simp only [List.append_assoc]
    rw [expHead_enc 4 2 (by norm_num)]
    simp only [Option.bind_eq_bind, Option.some_bind']
    rw [decU32_enc 4 (by norm_num)]
    simp only [Option.bind_eq_bind, Option.some_bind']
    rw [expHead_enc 4 1 (by norm_num)]
    simp only [Option.bind_eq_bind, Option.some_bind']
    rw [decText_enc _ hg]
    simp only [Option.bind_eq_bind, Option.some_bind']
  | ServicesTag t =>
    simp only [GetSet.wf, decide_eq_true_eq] at hg
    unfold GetSet.encode GetSet.decode
    simp only [List.append_assoc]
    rw [expHead_enc 4 2 (by norm_num)]
    simp only [Option.bind_eq_bind, Option.some_bind']
    rw [decU32_enc 5 (by norm_num)]
    simp only [Option.bind_eq_bind, Option.some_bind']
    rw [expHead_enc 4 1 (by norm_num)]
    simp only [Option.bind_eq_bind, Option.some_bind']
    rw [decU32_enc _ hg]
    simp only [Option.bind_eq_bind, Option.some_bind']

theorem Event.decode_encode_event (ev : Event) (he : ev.wf = true) (rest : List Nat) :
    Event.decode (ev.encode ++ rest) = some (ev, rest) := by
  cases ev with
  | ClientUpdate add cid svcs =>
    simp only [Event.wf, Bool.and_eq_true, decide_eq_true_eq, List.all_eq_true] at he
    obtain ⟨⟨h1, h2⟩, h3⟩ := he
    unfold Event.encode Event.decode
    simp only [List.append_assoc]
    rw [expHead_enc 4 2 (by norm_num)]
    simp only [Option.bind_eq_bind, Option.some_bind']
    rw [decU32_enc 0 (by norm_num)]
    simp only [Option.bind_eq_bind, Option.some_bind']
    rw [expHead_enc 4 3 (by norm_num)]
    simp only [Option.bind_eq_bind, Option.some_bind']
    rw [decBool_enc]
    simp only [Option.bind_eq_bind, Option.some_bind']
    rw [decU16_enc _ h1]
    simp only [Option.bind_eq_bind, Option.some_bind']
    rw [decArr_enc encUInt (decUInt (2 ^ 16)) svcs h2
      (fun s hs r => decU16_enc s (by simpa using h3 s hs) r)]
    simp only [Option.bind_eq_bind, Option.some_bind']
  | PeerUpdate p =>
    simp only [Event.wf] at he
    unfold Event.encode Event.decode
    simp only [List.append_assoc]
    rw [expHead_enc 4 2 (by norm_num)]
    simp only [Option.bind_eq_bind, Option.some_bind']
    rw [decU32_enc 1 (by norm_num)]
    simp only [Option.bind_eq_bind, Option.some_bind']
    rw [expHead_enc 4 1 (by norm_num)]
    simp only [Option.bind_eq_bind, Option.some_bind']
    rw [PeerInfo.decode_encode_peerInfo p he]
    simp only [Option.bind_eq_bind, Option.some_bind']
  | ServiceUpdate svc m =>
    simp only [Event.wf, Bool.and_eq_true, decide_eq_true_eq, List.all_eq_true] at he
    obtain ⟨⟨h1, h2⟩, h3⟩ := he
    unfold Event.encode Event.decode
    simp only [List.append_assoc]
    rw [expHead_enc 4 2 (by norm_num)]
    simp only [Option.bind_eq_bind, Option.some_bind']
    rw [decU32_enc 2 (by norm_num)]
    simp only [Option.bind_eq_bind, Option.some_bind']
    rw [expHead_enc 4 2 (by norm_num)]
    simp only [Option.bind_eq_bind, Option.some_bind']
    rw [decU16_enc _ h1]
    simp only [Option.bind_eq_bind, Option.some_bind']
    rw [decMap_enc encText (encArr encUInt) decText (decArr (decUInt (2 ^ 16))) m h2
      (fun kv hkv r => decText_enc kv.1
        (by
          have := h3 kv hkv
          simp only [Bool.and_eq_true, decide_eq_true_eq] at this
          exact this.1.1) r)
      (fun kv hkv r => by
        have := h3 kv hkv
        simp only [Bool.and_eq_true, decide_eq_true_eq, List.all_eq_true] at this
        exact decArr_enc encUInt (decUInt (2 ^ 16)) kv.2 this.1.2
          (fun s hs r2 => decU16_enc s (by simpa using this.2 s hs) r2) r)]
    simp only [Option.bind_eq_bind, Option.some_bind']

set_option maxHeartbeats 1600000 in
/-- The round-trip law at the message level: decoding the serialization
of a well-formed message yields the message and the unread rest. -/
theorem Message.decode_to_bytes (m : Message) (hm : m.wf = true) (rest : List Nat) :
    Message.decode (m.to_bytes ++ rest) = some (m, rest) := by
  cases m with
  | Ok =>
    unfold Message.to_bytes Message.decode
    simp only [List.append_assoc]
    rw [expHead_enc 4 2 (by norm_num)]
    simp only [Option.bind_eq_bind, Option.some_bind']
    rw [decU32_enc 0 (by norm_num)]
    simp only [Option.bind_eq_bind, Option.some_bind']
    rw [expHead_enc 4 0 (by norm_num)]
    simp only [Option.bind_eq_bind, Option.some_bind']
  | Error msg =>
    simp only [Message.wf, decide_eq_true_eq] at hm
    unfold Message.to_bytes Message.decode
    simp only [List.append_assoc]
    rw [expHead_enc 4 2 (by norm_num)]
    simp only [Option.bind_eq_bind, Option.some_bind']
    rw [decU32_enc 1 (by norm_num)]
    simp only [Option.bind_eq_bind, Option.some_bind']
    rw [expHead_enc 4 1 (by norm_num)]
    simp only [Option.bind_eq_bind, Option.some_bind']
    rw [decText_enc _ hm]
    simp only [Option.bind_eq_bind, Option.some_bind']
  | FileMessage tp fp tc fc content =>
    simp only [Message.wf, Bool.and_eq_true, decide_eq_true_eq, List.all_eq_true] at hm
    obtain ⟨⟨⟨⟨⟨h1, h2⟩, h3⟩, h4⟩, h5⟩, h6⟩ := hm
    unfold Message.to_bytes Message.decode
    simp only [List.append_assoc]
    rw [expHead_enc 4 2 (by norm_num)]
    simp only [Option.bind_eq_bind, Option.some_bind']
    rw [decU32_enc 2 (by norm_num)]
    simp only [Option.bind_eq_bind, Option.some_bind']
    rw [expHead_enc 4 5 (by norm_num)]
    simp only [Option.bind_eq_bind, Option.some_bind']
    rw [decText_enc _ h1]
    simp only [Option.bind_eq_bind, Option.some_bind']
    rw [decText_enc _ h2]
    simp only [Option.bind_eq_bind, Option.some_bind']
    rw [decU16_enc _ h3]
    simp only [Option.bind_eq_bind, Option.some_bind']
    rw [decU16_enc _ h4]
    simp only [Option.bind_eq_bind, Option.some_bind']
    rw [decArr_enc encUInt (decUInt (2 ^ 8)) content h5
      (fun b hb r => decU8_enc b (by simpa using h6 b hb) r)]
    simp only [Option.bind_eq_bind, Option.some_bind']
  | Register svcs chat files =>
    simp only [Message.wf, Bool.and_eq_true, decide_eq_true_eq, List.all_eq_true] at hm
    obtain ⟨h1, h2⟩ := hm
    unfold Message.to_bytes Message.decode
    simp only [List.append_assoc]
    rw [expHead_enc 4 2 (by norm_num)]
    simp only [Option.bind_eq_bind, Option.some_bind']
    rw [decU32_enc 3 (by norm_num)]
    simp only [Option.bind_eq_bind, Option.some_bind']
    rw [expHead_enc 4 3 (by norm_num)]
    simp only [Option.bind_eq_bind, Option.some_bind']
    rw [decArr_enc encUInt (decUInt (2 ^ 16)) svcs h1
      (fun s hs r => decU16_enc s (by simpa using h2 s hs) r)]
    simp only [Option.bind_eq_bind, Option.some_bind']
    rw [decBool_enc]
    simp only [Option.bind_eq_bind, Option.some_bind']
    rw [decBool_enc]
    simp only [Option.bind_eq_bind, Option.some_bind']
  | RegisterOk cid =>
    simp only [Message.wf, decide_eq_true_eq] at hm
    unfold Message.to_bytes Message.decode
    simp only [List.append_assoc]
    rw [expHead_enc 4 2 (by norm_num)]
    simp only [Option.bind_eq_bind, Option.some_bind']
    rw [decU32_enc 4 (by norm_num)]
    simp only [Option.bind_eq_bind, Option.some_bind']
    rw [expHead_enc 4 1 (by norm_num)]
    simp only [Option.bind_eq_bind, Option.some_bind']
    rw [decU16_enc _ hm]
    simp only [Option.bind_eq_bind, Option.some_bind']
  | Get cid rid content =>
    simp only [Message.wf, Bool.and_eq_true, decide_eq_true_eq] at hm
    obtain ⟨⟨h1, h2⟩, h3⟩ := hm
    unfold Message.to_bytes Message.decode
    simp only [List.append_assoc]
    rw [expHead_enc 4 2 (by norm_num)]
    simp only [Option.bind_eq_bind, Option.some_bind']
    rw [decU32_enc 5 (by norm_num)]
    simp only [Option.bind_eq_bind, Option.some_bind']
    rw [expHead_enc 4 3 (by norm_num)]
    simp only [Option.bind_eq_bind, Option.some_bind']
    rw [decU16_enc _ h1]
    simp only [Option.bind_eq_bind, Option.some_bind']
    rw [decU32_enc _ h2]
    simp only [Option.bind_eq_bind, Option.some_bind']
    rw [GetSet.decode_encode_getSet content h3]
    simp only [Option.bind_eq_bind, Option.some_bind']
  | Set cid rid content =>
    simp only [Message.wf, Bool.and_eq_true, decide_eq_true_eq] at hm
    obtain ⟨⟨h1, h2⟩, h3⟩ := hm
    unfold Message.to_bytes Message.decode
    simp only [List.append_assoc]
    rw [expHead_enc 4 2 (by norm_num)]
    simp only [Option.bind_eq_bind, Option.some_bind']
    rw [decU32_enc 6 (by norm_num)]
    simp only [Option.bind_eq_bind, Option.some_bind']
    rw [expHead_enc 4 3 (by norm_num)]
    simp only [Option.bind_eq_bind, Option.some_bind']
    rw [decU16_enc _ h1]
    simp only [Option.bind_eq_bind, Option.some_bind']
    rw [decU32_enc _ h2]
    simp only [Option.bind_eq_bind, Option.some_bind']
    rw [GetSet.decode_encode_getSet content h3]
    simp only [Option.bind_eq_bind, Option.some_bind']
  | Msg tp fp tc fc svc content =>
    simp only [Message.wf, Bool.and_eq_true, decide_eq_true_eq] at hm
    obtain ⟨⟨⟨⟨⟨h1, h2⟩, h3⟩, h4⟩, h5⟩, h6⟩ := hm
    unfold Message.to_bytes Message.decode
    simp only [List.append_assoc]
    rw [expHead_enc 4 2 (by norm_num)]
    simp only [Option.bind_eq_bind, Option.some_bind']
    rw [decU32_enc 7 (by norm_num)]
    simp only [Option.bind_eq_bind, Option.some_bind']
    rw [expHead_enc 4 6 (by norm_num)]
    simp only [Option.bind_eq_bind, Option.some_bind']
    rw [decText_enc _ h1]
    simp only [Option.bind_eq_bind, Option.some_bind']
    rw [decText_enc _ h2]
    simp only [Option.bind_eq_bind, Option.some_bind']
    rw [decU16_enc _ h3]
    simp only [Option.bind_eq_bind, Option.some_bind']
    rw [decU16_enc _ h4]
    simp only [Option.bind_eq_bind, Option.some_bind']
    rw [decU16_enc _ h5]
    simp only [Option.bind_eq_bind, Option.some_bind']
    rw [decBytes_enc _ h6]
    simp only [Option.bind_eq_bind, Option.some_bind']
  | Event tc fc ev =>
    simp only [Message.wf, Bool.and_eq_true, decide_eq_true_eq] at hm
    obtain ⟨⟨h1, h2⟩, h3⟩ := hm
    unfold Message.to_bytes Message.decode
    simp only [List.append_assoc]
    rw [expHead_enc 4 2 (by norm_num)]
    simp only [Option.bind_eq_bind, Option.some_bind']
    rw [decU32_enc 8 (by norm_num)]
    simp only [Option.bind_eq_bind, Option.some_bind']
    rw [expHead_enc 4 3 (by norm_num)]
    simp only [Option.bind_eq_bind, Option.some_bind']
    rw [decU16_enc _ h1]
    simp only [Option.bind_eq_bind, Option.some_bind']
    rw [decU16_enc _ h2]
    simp only [Option.bind_eq_bind, Option.some_bind']
    rw [Event.decode_encode_event ev h3]
    simp only [Option.bind_eq_bind, Option.some_bind']

end Codec

/-! ## Claim C3: the encode/decode round-trip law -/

/-- C3: for every value of the daemon `Message` type (any variant, any
well-formed field contents, `wf` stating only that the fields fit their
Rust machine types), `Message::from_bytes(Message::to_bytes(m))` returns
`Some` of a message equal to `m`. -/
theorem claim_C3 (m : Codec.Message) (hm : m.wf = true) :
    Codec.Message.from_bytes (Codec.Message.to_bytes m) = some m := by
  unfold Codec.Message.from_bytes
  rw [show Codec.Message.to_bytes m = Codec.Message.to_bytes m ++ [] by simp,
    Codec.Message.decode_to_bytes m hm []]
  rfl

theorem claim_C3_witness :
    (Codec.Message.Event 7 2
      (Codec.Event.ServiceUpdate 1025 [([104, 105], [1, 65534])])).wf = true
    ∧ Codec.Message.from_bytes (Codec.Message.to_bytes
        (Codec.Message.Event 7 2
          (Codec.Event.ServiceUpdate 1025 [([104, 105], [1, 65534])])))
      = some (Codec.Message.Event 7 2
          (Codec.Event.ServiceUpdate 1025 [([104, 105], [1, 65534])])) :=
  ⟨by decide, claim_C3 _ (by decide)⟩

/-! ## Router claims -/

theorem zip_map_self (l : List α) (f : α → α) :
    l.zip (l.map f) = l.map (fun a => (a, f a)) := by
  conv_lhs => rw [show l.zip (l.map f) = (l.map id).zip (l.map f) by simp]
  rw [List.zip_map']
  rfl

theorem countP_key_le_one (l : List (Nat × Daemon.ClientInfo)) (k : Nat)
    (h : (l.map Prod.fst).Nodup) :
    l.countP (fun a => decide (a.1 = k)) ≤ 1 := by
  induction l with
  | nil => simp
  | cons x l ih =>
    simp only [List.map_cons, List.nodup_cons] at h
    by_cases hx : x.1 = k
    · rw [List.countP_cons_of_pos _ _ (by simpa using hx)]
      have hz : l.countP (fun a => decide (a.1 = k)) = 0 := by
        rw [List.countP_eq_zero]
        intro a ha
        simp only [decide_eq_true_eq]
        intro hak
        have hm : x.1 ∈ List.map Prod.fst l := by
          have := List.mem_map_of_mem Prod.fst ha
          rwa [hak, ← hx] at this
        exact h.1 hm
      omega
    · rw [List.countP_cons_of_neg _ _ (by simpa using hx)]
      exact ih h.2

/-- C1: for an inbound overlay file message with `to_client == 0xFFFF`
the router enqueues exactly one copy of the frame — whose `to_peer` is
the empty string — on the outbox of every local client registered for
the file service (`file_support`, the service a `FileMessage` belongs
to), and on no other client's outbox; for `to_client != 0xFFFF` at most
one local client's outbox changes (given the client map's keys are
unique, as in a `HashMap`). -/
theorem claim_C1 (clients : List (Nat × Daemon.ClientInfo)) (from_peer : String)
    (from_client : Nat) (content : List Nat) :
    (Daemon.handle_event_file_message clients from_peer from_client
        DaemonMsg.Message.ALL_CLIENTS content).length = clients.length
    ∧ (∀ p ∈ clients.zip (Daemon.handle_event_file_message clients from_peer from_client
        DaemonMsg.Message.ALL_CLIENTS content),
        (p.1.2.file_support = true →
          p.2.1 = p.1.1 ∧ p.2.2.sender = p.1.2.sender ++
            [DaemonMsg.Message.FileMessage "" from_peer DaemonMsg.Message.ALL_CLIENTS
              from_client content])
        ∧ (p.1.2.file_support = false → p.2 = p.1))
    ∧ (∀ to_client, to_client ≠ DaemonMsg.Message.ALL_CLIENTS →
        (clients.map Prod.fst).Nodup →
        (clients.zip (Daemon.handle_event_file_message clients from_peer from_client
          to_client content)).countP (fun q => decide (q.1 ≠ q.2)) ≤ 1) := by
  have hbc : Daemon.handle_event_file_message clients from_peer from_client
      DaemonMsg.Message.ALL_CLIENTS content =
      clients.map (fun e =>
        if e.2.file_support then
          (e.1, Daemon.enqueue e.2 (Daemon.file_frame from_peer
            DaemonMsg.Message.ALL_CLIENTS from_client content))
        else e) := by
    unfold Daemon.handle_event_file_message
    rw [if_pos rfl]
  refine ⟨?_, ?_, ?_⟩
  · rw [hbc, List.length_map]
  · intro p hp
    rw [hbc, zip_map_self] at hp
    obtain ⟨a, ha, rfl⟩ := List.mem_map.mp hp
    by_cases hfs : a.2.file_support = true
    · constructor
      · intro _
        simp [hfs, Daemon.enqueue, Daemon.file_frame]
      · intro hcontra
        simp [hfs] at hcontra
    · have hfs2 : a.2.file_support = false := by simpa using hfs
      constructor
      · intro hcontra
        simp [hfs2] at hcontra
      · intro _
        simp [hfs2]
  · intro to_client hne hnd
    have hun : Daemon.handle_event_file_message clients from_peer from_client
        to_client content =
        (if clients.any (fun e => decide (e.1 = to_client)) then
          clients.map (fun e =>
            if e.1 = to_client then
              (e.1, Daemon.enqueue e.2 (Daemon.file_frame from_peer to_client
                from_client content))
            else e)
        else clients) := by
      unfold Daemon.handle_event_file_message
      rw [if_neg hne]
    rw [hun]
    by_cases hany : clients.any (fun e => decide (e.1 = to_client)) = true
    · rw [if_pos hany, zip_map_self, List.countP_map]
      have hmono : clients.countP ((fun q : (Nat × Daemon.ClientInfo) ×
            (Nat × Daemon.ClientInfo) => decide (q.1 ≠ q.2)) ∘
          (fun a => (a, if a.1 = to_client then
            (a.1, Daemon.enqueue a.2 (Daemon.file_frame from_peer to_client
              from_client content)) else a))) ≤
          clients.countP (fun a => decide (a.1 = to_client)) := by
        apply List.countP_mono_left
        intro a _ hne2
        simp only [Function.comp_apply, decide_eq_true_eq] at hne2
        simp only [decide_eq_true_eq]
        by_contra hk
        exact hne2 (by rw [if_neg hk])
      exact le_trans hmono (countP_key_le_one clients to_client hnd)
    · rw [if_neg hany]
      have h0 : (clients.zip clients).countP
          (fun q => decide (q.1 ≠ q.2)) = 0 := by
        rw [List.countP_eq_zero]
        intro q hq
        have hz : clients.zip clients = clients.map (fun a => (a, a)) := by
          have := zip_map_self clients id
          simpa using this
        rw [hz] at hq
        obtain ⟨a, _, rfl⟩ := List.mem_map.mp hq
        simp
      rw [h0]
      omega

theorem claim_C1_witness :
    ((5 : Nat) ≠ DaemonMsg.Message.ALL_CLIENTS
      ∧ (([(1, ⟨[], false, true⟩), (2, ⟨[], true, false⟩)] :
          List (Nat × Daemon.ClientInfo)).map Prod.fst).Nodup)
    ∧ ([(1, (⟨[], false, true⟩ : Daemon.ClientInfo)), (2, ⟨[], true, false⟩)].zip
        (Daemon.handle_event_file_message
          [(1, ⟨[], false, true⟩), (2, ⟨[], true, false⟩)] "P" 9 5 [3])).countP
        (fun q => decide (q.1 ≠ q.2)) ≤ 1 :=
  ⟨⟨by decide, by decide⟩,
    (claim_C1 [(1, ⟨[], false, true⟩), (2, ⟨[], true, false⟩)] "P" 9 [3]).2.2
      5 (by decide) (by decide)⟩

/-- C2 counterexample: a client with id 5 exists but has no service
registered (`chat_support = file_support = false`); the router still
enqueues the frame on its outbox, while the claim demands a silent drop
on service mismatch. -/
theorem claim_C2_counterexample :
    Daemon.handle_event_file_message [(5, ⟨[], false, false⟩)] "peerA" 2 5 [1, 2] =
      [(5, ⟨[DaemonMsg.Message.FileMessage "" "peerA" 5 2 [1, 2]], false, false⟩)] := by
  decide

/-- C2 (amended): for `to_client != 0xFFFF`, if no client with that id
exists the message is dropped silently (state unchanged, no error
reply); if such a client exists, the frame is enqueued on its outbox
regardless of its registered services (the router performs no service
check on unicast), and every other entry is unchanged. -/
theorem claim_C2 (clients : List (Nat × Daemon.ClientInfo)) (from_peer : String)
    (from_client to_client : Nat) (content : List Nat)
    (hne : to_client ≠ DaemonMsg.Message.ALL_CLIENTS) :
    ((∀ e ∈ clients, e.1 ≠ to_client) →
      Daemon.handle_event_file_message clients from_peer from_client to_client content
        = clients)
    ∧ (∀ p ∈ clients.zip (Daemon.handle_event_file_message clients from_peer from_client
        to_client content),
        (p.1.1 = to_client → p.2 = (p.1.1, Daemon.enqueue p.1.2
          (Daemon.file_frame from_peer to_client from_client content)))
        ∧ (p.1.1 ≠ to_client → p.2 = p.1)) := by
  have hun : Daemon.handle_event_file_message clients from_peer from_client
      to_client content =
      (if clients.any (fun e => decide (e.1 = to_client)) then
        clients.map (fun e =>
          if e.1 = to_client then
            (e.1, Daemon.enqueue e.2 (Daemon.file_frame from_peer to_client
              from_client content))
          else e)
      else clients) := by
    unfold Daemon.handle_event_file_message
    rw [if_neg hne]
  constructor
  · intro habs
    have hanyf : clients.any (fun e => decide (e.1 = to_client)) = false := by
      rw [List.any_eq_false]
      intro e he
      simpa using habs e he
    rw [hun, hanyf]
    simp
  · intro p hp
    rw [hun] at hp
    by_cases hany : clients.any (fun e => decide (e.1 = to_client)) = true
    · rw [if_pos hany, zip_map_self] at hp
      obtain ⟨a, ha, rfl⟩ := List.mem_map.mp hp
      by_cases hk : a.1 = to_client
      · constructor
        · intro _
          simp [hk]
        · intro hcontra
          simp [hk] at hcontra
      · constructor
        · intro hcontra
          simp [hk] at hcontra
        · intro _
          simp [hk]
    · rw [if_neg hany] at hp
      have hz : clients.zip clients = clients.map (fun a => (a, a)) := by
        have := zip_map_self clients id
        simpa using this
      rw [hz] at hp
      obtain ⟨a, ha, rfl⟩ := List.mem_map.mp hp
      constructor
      · intro hk
        exfalso
        simp only [List.any_eq_true, decide_eq_true_eq] at hany
        simp only at hk
        exact hany ⟨a, ha, hk⟩
      · intro _
        rfl

theorem claim_C2_witness :
    ((7 : Nat) ≠ DaemonMsg.Message.ALL_CLIENTS
      ∧ ∀ e ∈ ([(5, (⟨[], true, true⟩ : Daemon.ClientInfo))] :
          List (Nat × Daemon.ClientInfo)), e.1 ≠ 7)
    ∧ Daemon.handle_event_file_message [(5, ⟨[], true, true⟩)] "P" 2 7 [9]
        = [(5, ⟨[], true, true⟩)] :=
  ⟨⟨by decide, by decide⟩,
    (claim_C2 [(5, ⟨[], true, true⟩)] "P" 2 7 [9] (by decide)).1 (by decide)⟩

/-- C5 counterexample: with the counter at 0xFFFE and client 1 still
connected, the first connection takes 0xFFFE and wraps the counter to 1;
the next connection is assigned id 1 even though id 1 is in use — the
allocator performs no probe for a free slot. -/
theorem claim_C5_counterexample :
    (Daemon.handle_connection ⟨65534, [(1, ⟨[], false, false⟩)]⟩).1 = 65534
    ∧ (Daemon.handle_connection ⟨65534, [(1, ⟨[], false, false⟩)]⟩).2.client_id = 1
    ∧ (Daemon.handle_connection
        ((Daemon.handle_connection ⟨65534, [(1, ⟨[], false, false⟩)]⟩).2)).1 = 1
    ∧ (1, (⟨[], false, false⟩ : Daemon.ClientInfo)) ∈
        (Daemon.handle_connection ⟨65534, [(1, ⟨[], false, false⟩)]⟩).2.clients := by
  decide

/-- C5 (amended): client ids are assigned sequentially starting at 1;
the counter increments after each assignment and wraps from 0xFFFE back
to 1 (skipping 0xFFFF, and never producing 0), so the assigned and next
ids always lie in 1..=0xFFFE; no check against ids currently in use is
performed (the client map is not consulted and is left unchanged). -/
theorem claim_C5 (s : Daemon.DaemonState) (h1 : 1 ≤ s.client_id)
    (h2 : s.client_id ≤ 65534) :
    (Daemon.handle_connection s).1 = s.client_id
    ∧ (Daemon.handle_connection s).2.clients = s.clients
    ∧ (Daemon.handle_connection s).2.client_id
        = (if s.client_id = 65534 then 1 else s.client_id + 1)
    ∧ 1 ≤ (Daemon.handle_connection s).2.client_id
    ∧ (Daemon.handle_connection s).2.client_id ≤ 65534 := by
  have hval : (Daemon.handle_connection s).2.client_id
      = (if s.client_id = 65534 then 1 else s.client_id + 1) := by
    unfold Daemon.handle_connection Daemon.next_client_id
    simp only [DaemonMsg.Message.ALL_CLIENTS]
    have hmod : (s.client_id + 1) % 2 ^ 16 = s.client_id + 1 := by omega
    rw [hmod]
    by_cases h : s.client_id = 65534
    · simp [h]
    · rw [if_neg (by omega), if_neg h]
  refine ⟨rfl, rfl, hval, ?_, ?_⟩ <;> rw [hval] <;> split <;> omega

theorem claim_C5_witness :
    (1 ≤ 7 ∧ 7 ≤ 65534)
    ∧ (Daemon.handle_connection ⟨7, []⟩).1 = 7
    ∧ (Daemon.handle_connection ⟨7, []⟩).2.clients = []
    ∧ (Daemon.handle_connection ⟨7, []⟩).2.client_id = (if (7 : Nat) = 65534 then 1 else 7 + 1)
    ∧ 1 ≤ (Daemon.handle_connection ⟨7, []⟩).2.client_id
    ∧ (Daemon.handle_connection ⟨7, []⟩).2.client_id ≤ 65534 :=
  ⟨⟨by decide, by decide⟩, claim_C5 ⟨7, []⟩ (by decide) (by decide)⟩

/-- C6 counterexample: a registered client's `Get{Name}` request is
answered with content `Error("Not yet implemented")` — not the daemon's
hostname (`GetSet::Name(...)`). -/
theorem claim_C6_counterexample :
    (Daemon.handle_client_message [] 1 ⟨[], false, false⟩
        (.Get 1 1 (.Name ""))).2.1
      = some (.Get 1 1 (.Error "Not yet implemented"))
    ∧ ¬ ∃ s : String, (Daemon.handle_client_message [] 1 ⟨[], false, false⟩
        (.Get 1 1 (.Name ""))).2.1 = some (.Get 1 1 (.Name s)) := by
  constructor
  · rfl
  · rintro ⟨s, hs⟩
    simp [Daemon.handle_client_message] at hs

/-- C6 (amended): registration succeeds (`Register{chat, files}` is
answered with `RegisterOk` carrying the client's allocated id), but a
subsequent `Get` with content `Name` is answered with a `Get` reply of
identical shape whose content is `Error("Not yet implemented")` — the
hostname query is unimplemented in the daemon. -/
theorem claim_C6 (peers : List DaemonMsg.PeerInfo) (id : Nat) (client : Daemon.ClientInfo)
    (chat files : Bool) (cid rid : Nat) (name : String) :
    (Daemon.handle_client_message peers id client (.Register chat files)).2.1
      = some (.RegisterOk id)
    ∧ (Daemon.handle_client_message peers id client (.Get cid rid (.Name name))).2.1
      = some (.Get cid rid (.Error "Not yet implemented")) :=
  ⟨rfl, rfl⟩

theorem sub64_eq_sub (a b : Nat) (hb : b ≤ a) (ha : a < 2 ^ 64) :
    sub64 a b = a - b := by
  unfold sub64
  omega

/-- C7: on a reaper run at time `now`, `handle_timer` removes from the
peer table exactly the entries whose `last_update` lies more than 30
seconds in the past (`now - last_update > 30`) and leaves every other
entry unchanged, in order — given the map invariants (unique keys equal
to the stored `peer_id`) and that the stored timestamps are not in the
future. -/
theorem claim_C7 (now : Nat) (peers : List (String × DaemonMsg.PeerInfo))
    (hkey : ∀ e ∈ peers, e.1 = e.2.peer_id)
    (hnodup : (peers.map Prod.fst).Nodup)
    (hpast : ∀ e ∈ peers, e.2.last_update ≤ now)
    (hnow : now < 2 ^ 64) :
    Daemon.handle_timer now peers
      = peers.filter (fun e => decide (now - e.2.last_update ≤ 30)) := by
  unfold Daemon.handle_timer
  apply List.filter_congr
  intro e he
  have hsub : ∀ e2 ∈ peers, sub64 now e2.2.last_update = now - e2.2.last_update :=
    fun e2 he2 => sub64_eq_sub now e2.2.last_update (hpast e2 he2) hnow
  have hiff : e.1 ∈ (peers.filter
        (fun e2 => decide (30 < sub64 now e2.2.last_update))).map (fun e2 => e2.2.peer_id)
      ↔ 30 < now - e.2.last_update := by
    constructor
    · intro hmem
      obtain ⟨e2, he2, hpe⟩ := List.mem_map.mp hmem
      obtain ⟨he2m, he2s⟩ := List.mem_filter.mp he2
      have hk2 : e2.1 = e.1 := (hkey e2 he2m).trans hpe
      have hee : e2 = e :=
        List.inj_on_of_nodup_map hnodup he2m he hk2
      rw [← hee]
      rw [hsub e2 he2m] at he2s
      simpa using he2s
    · intro hlt
      apply List.mem_map.mpr
      refine ⟨e, List.mem_filter.mpr ⟨he, ?_⟩, (hkey e he).symm⟩
      rw [hsub e he]
      simpa using hlt
  by_cases hlt : 30 < now - e.2.last_update
  · simp [hiff, hlt, Nat.not_le_of_lt hlt]
  · simp only [decide_eq_true_eq] at hiff ⊢
    simp [hiff, hlt, Nat.le_of_not_lt hlt]

theorem claim_C7_witness :
    ((∀ e ∈ ([("A", ⟨"A", "alice", false, false, 10⟩),
        ("B", ⟨"B", "bob", false, false, 40⟩)] :
        List (String × DaemonMsg.PeerInfo)), e.1 = e.2.peer_id)
      ∧ (([("A", ⟨"A", "alice", false, false, 10⟩),
          ("B", ⟨"B", "bob", false, false, 40⟩)] :
          List (String × DaemonMsg.PeerInfo)).map Prod.fst).Nodup
      ∧ (∀ e ∈ ([("A", ⟨"A", "alice", false, false, 10⟩),
          ("B", ⟨"B", "bob", false, false, 40⟩)] :
          List (String × DaemonMsg.PeerInfo)), e.2.last_update ≤ 45)
      ∧ 45 < 2 ^ 64)
    ∧ Daemon.handle_timer 45
        [("A", ⟨"A", "alice", false, false, 10⟩), ("B", ⟨"B", "bob", false, false, 40⟩)]
      = ([("A", ⟨"A", "alice", false, false, 10⟩),
          ("B", ⟨"B", "bob", false, false, 40⟩)] :
          List (String × DaemonMsg.PeerInfo)).filter
          (fun e => decide (45 - e.2.last_update ≤ 30)) :=
  ⟨⟨by decide, by decide, by decide, by decide⟩,
    claim_C7 45 _ (by decide) (by decide) (by decide) (by decide)⟩

/-! ## Service-directory claims -/

/-- C4 counterexample: processing `ClientUpdate(add, 5, {7})` while the
random draw is 0 leaves the map non-empty but the advertised tag 0 — the
code never forces the fresh tag to be non-zero. -/
theorem claim_C4_counterexample :
    (Service.handle_event_client_update ⟨1, 0, ⟨0, []⟩, []⟩ true 5 [7] 0).1.local_map.services_tag
      = 0
    ∧ (Service.handle_event_client_update ⟨1, 0, ⟨0, []⟩, []⟩ true 5 [7]
        0).1.local_map.services = [(5, [7])] := by
  decide

/-- C4 (amended): after processing a `ClientUpdate`, the advertised
`services_tag` is 0 when the local service map is empty and otherwise
equals the freshly drawn random value, which is not forced to be
non-zero; hence `services_tag == 0 ⇔ map empty` holds exactly when the
drawn value is non-zero.  The new tag is propagated to the daemon in a
`Set{ServicesTag(tag)}` message. -/
theorem claim_C4 (sc : Service.ServiceClient) (add : Bool) (cid : Nat)
    (svcs : List Nat) (rand : Nat) :
    ((Service.handle_event_client_update sc add cid svcs
        rand).1.local_map.services.isEmpty = true →
      (Service.handle_event_client_update sc add cid svcs
        rand).1.local_map.services_tag = 0)
    ∧ ((Service.handle_event_client_update sc add cid svcs
        rand).1.local_map.services.isEmpty = false →
      (Service.handle_event_client_update sc add cid svcs
        rand).1.local_map.services_tag = rand)
    ∧ (rand ≠ 0 →
      ((Service.handle_event_client_update sc add cid svcs
          rand).1.local_map.services_tag = 0
        ↔ (Service.handle_event_client_update sc add cid svcs
          rand).1.local_map.services.isEmpty = true))
    ∧ (Service.handle_event_client_update sc add cid svcs rand).2
      = Codec.Message.Set sc.client_id ((sc.request_id + 1) % 2 ^ 32)
          (Codec.GetSet.ServicesTag
            ((Service.handle_event_client_update sc add cid svcs
              rand).1.local_map.services_tag)) := by
  unfold Service.handle_event_client_update Service.update_services_tag
    Service.get_request_id
  dsimp only
  refine ⟨?_, ?_, ?_, ?_⟩
  · intro h
    rw [h, if_pos rfl]
  · intro h
    rw [h, if_neg Bool.false_ne_true]
  · intro hr
    constructor
    · intro h0
      by_cases he : (if (if svcs.isEmpty = true then false else add) = true then
          (if sc.local_map.services.any (fun e => decide (e.1 = cid)) = true then
            sc.local_map.services.map (fun e => if e.1 = cid then (e.1, svcs) else e)
          else sc.local_map.services ++ [(cid, svcs)])
        else sc.local_map.services.filter
          (fun e => decide (e.1 ≠ cid))).isEmpty = true
      · exact he
      · rw [if_neg (by simpa using he)] at h0
        exact absurd h0 hr
    · intro h
      rw [h, if_pos rfl]
  · rfl

theorem claim_C4_witness :
    (Service.handle_event_client_update ⟨1, 0, ⟨0, []⟩, []⟩ true 5 [7]
        3).1.local_map.services_tag = 3
    ∧ ((Service.handle_event_client_update ⟨1, 0, ⟨0, []⟩, []⟩ true 5 [7]
        3).1.local_map.services_tag = 0
      ↔ (Service.handle_event_client_update ⟨1, 0, ⟨0, []⟩, []⟩ true 5 [7]
        3).1.local_map.services.isEmpty = true) :=
  ⟨(claim_C4 ⟨1, 0, ⟨0, []⟩, []⟩ true 5 [7] 3).2.1 (by decide),
    (claim_C4 ⟨1, 0, ⟨0, []⟩, []⟩ true 5 [7] 3).2.2.1 (by decide)⟩

/-! ## File-transfer claims -/

/-- C8: a download in `WaitChunk` that receives a `Chunk` whose payload
has exactly `CHUNK_SIZE` (512) bytes moves to `SendAck` and, once the
`ChunkAck` is emitted by `next`, back to `WaitChunk`; a `Chunk` strictly
shorter than 512 bytes (a zero-byte chunk included) moves to
`SendLastAck` and then to `Done` when the final `ChunkAck` is emitted.
Hypotheses: the transfer is a download (`from` non-empty), its file
handle is open, and the chunk write succeeds. -/
theorem claim_C8 (ft : FileTransfer) (now now2 i : Nat) (data : List Nat)
    (openOk : Bool) (readRes : Option (List Nat))
    (hdl : ft.from_ ≠ "") (hst : ft.state = .WaitChunk) (hio : ft.io = true) :
    (data.length = CHUNK_SIZE →
      (ft.handle now (.Chunk i data) true).state = .SendAck
      ∧ ((ft.handle now (.Chunk i data) true).next now2 openOk readRes).1.state
          = .WaitChunk
      ∧ ((ft.handle now (.Chunk i data) true).next now2 openOk readRes).2
          = some (.ChunkAck ft.id))
    ∧ (data.length < CHUNK_SIZE →
      (ft.handle now (.Chunk i data) true).state = .SendLastAck
      ∧ ((ft.handle now (.Chunk i data) true).next now2 openOk readRes).1.state
          = .Done
      ∧ ((ft.handle now (.Chunk i data) true).next now2 openOk readRes).2
          = some (.ChunkAck ft.id)) := by
  have hup : ft.is_upload = false := by
    simp [FileTransfer.is_upload, hdl]
  have hh : ft.handle now (.Chunk i data) true =
      { ft with state := if data.length < CHUNK_SIZE then .SendLastAck else .SendAck,
                last_active := now,
                num_bytes := (ft.num_bytes + data.length) % 2 ^ 64 } := by
    unfold FileTransfer.handle FileTransfer.handle_download
      FileTransfer.write_next_chunk FileTransfer.reset_timeout
    rw [hup]
    simp [hst, hio]
  constructor
  · intro hlen
    have hnlt : ¬ data.length < CHUNK_SIZE := by omega
    rw [hh, if_neg hnlt]
    refine ⟨rfl, ?_, ?_⟩ <;>
      simp [FileTransfer.next]
  · intro hlen
    rw [hh, if_pos hlen]
    refine ⟨rfl, ?_, ?_⟩ <;>
      simp [FileTransfer.next, FileTransfer.complete, FileTransfer.is_done,
        FileTransfer.is_error]

set_option maxRecDepth 4000 in
theorem claim_C8_witness :
    ((FileTransfer.handle ⟨1, "peerX", "", "f", .WaitChunk, true, 0, 0, 0, 0⟩ 5
        (.Chunk 1 (List.replicate 512 0)) true).state = .SendAck
      ∧ ((FileTransfer.handle ⟨1, "peerX", "", "f", .WaitChunk, true, 0, 0, 0, 0⟩ 5
          (.Chunk 1 (List.replicate 512 0)) true).next 6 true none).1.state = .WaitChunk
      ∧ ((FileTransfer.handle ⟨1, "peerX", "", "f", .WaitChunk, true, 0, 0, 0, 0⟩ 5
          (.Chunk 1 (List.replicate 512 0)) true).next 6 true none).2
        = some (.ChunkAck 1))
    ∧ ((FileTransfer.handle ⟨1, "peerX", "", "f", .WaitChunk, true, 0, 0, 0, 0⟩ 5
        (.Chunk 1 []) true).state = .SendLastAck
      ∧ ((FileTransfer.handle ⟨1, "peerX", "", "f", .WaitChunk, true, 0, 0, 0, 0⟩ 5
          (.Chunk 1 []) true).next 6 true none).1.state = .Done
      ∧ ((FileTransfer.handle ⟨1, "peerX", "", "f", .WaitChunk, true, 0, 0, 0, 0⟩ 5
          (.Chunk 1 []) true).next 6 true none).2 = some (.ChunkAck 1)) :=
  ⟨(claim_C8 ⟨1, "peerX", "", "f", .WaitChunk, true, 0, 0, 0, 0⟩ 5 6 1
      (List.replicate 512 0) true none (by decide) (by decide) (by decide)).1 (by decide),
    (claim_C8 ⟨1, "peerX", "", "f", .WaitChunk, true, 0, 0, 0, 0⟩ 5 6 1
      [] true none (by decide) (by decide) (by decide)).2 (by decide)⟩

/-- C9: `get_data_rate` is total and never divides by zero: with the
relevant end timestamp (`completed_at` if positive, otherwise
`last_active`) not strictly greater than `created_at` it returns 0, and
otherwise it divides `num_bytes` by the positive number of elapsed
seconds. -/
theorem claim_C9 (ft : FileTransfer) :
    ((if 0 < ft.completed_at then ft.completed_at else ft.last_active) ≤ ft.created_at →
      ft.get_data_rate = 0)
    ∧ (ft.created_at < (if 0 < ft.completed_at then ft.completed_at else ft.last_active) →
      0 < (if 0 < ft.completed_at then ft.completed_at else ft.last_active) - ft.created_at
      ∧ ft.get_data_rate = ft.num_bytes /
          ((if 0 < ft.completed_at then ft.completed_at else ft.last_active)
            - ft.created_at)) := by
  unfold FileTransfer.get_data_rate
  constructor
  · intro h
    rw [if_pos h]
  · intro h
    exact ⟨by omega, by rw [if_neg (by omega)]⟩

theorem claim_C9_witness :
    (2 : Nat) < (if 0 < (10 : Nat) then (10 : Nat) else 3) ∧
    (0 < (if 0 < (10 : Nat) then (10 : Nat) else 3) - 2
      ∧ FileTransfer.get_data_rate ⟨1, "", "p", "f", .Done, false, 2, 3, 10, 16⟩
        = 16 / ((if 0 < (10 : Nat) then (10 : Nat) else 3) - 2)) :=
  ⟨by decide, (claim_C9 ⟨1, "", "p", "f", .Done, false, 2, 3, 10, 16⟩).2 (by decide)⟩

/-- C10: terminal transfer states are absorbing — once a transfer is
`Done` or `Error`, `complete`, `cancel` and `check_timeout` leave the
transfer (state, `completed_at`, `io` and all other fields) unchanged. -/
theorem claim_C10 (ft : FileTransfer) (now : Nat) (err : Option String)
    (h : (ft.is_done || ft.is_error) = true) :
    ft.complete now err = ft ∧ ft.cancel now = ft ∧ ft.check_timeout now = ft := by
  have hc : ∀ e : Option String, ft.complete now e = ft := by
    intro e
    unfold FileTransfer.complete
    rw [if_pos h]
  refine ⟨hc err, ?_, ?_⟩
  · unfold FileTransfer.cancel
    exact hc _
  · unfold FileTransfer.check_timeout
    rw [if_pos h]

theorem claim_C10_witness :
    ((FileTransfer.is_done ⟨1, "", "p", "f", .Done, false, 0, 0, 5, 9⟩
      || FileTransfer.is_error ⟨1, "", "p", "f", .Done, false, 0, 0, 5, 9⟩) = true)
    ∧ (FileTransfer.complete ⟨1, "", "p", "f", .Done, false, 0, 0, 5, 9⟩ 99 (some "x")
        = ⟨1, "", "p", "f", .Done, false, 0, 0, 5, 9⟩
      ∧ FileTransfer.cancel ⟨1, "", "p", "f", .Done, false, 0, 0, 5, 9⟩ 99
        = ⟨1, "", "p", "f", .Done, false, 0, 0, 5, 9⟩
      ∧ FileTransfer.check_timeout ⟨1, "", "p", "f", .Done, false, 0, 0, 5, 9⟩ 99
        = ⟨1, "", "p", "f", .Done, false, 0, 0, 5, 9⟩) :=
  ⟨by decide, claim_C10 ⟨1, "", "p", "f", .Done, false, 0, 0, 5, 9⟩ 99 (some "x") (by decide)⟩

end Hi
